import Mathlib

set_option maxRecDepth 8000

/-!
Shallow embedding of the response-parsing and orchestration logic of the
repository: src/ai_agent.py, src/specialized_agents.py, src/api.py,
src/agents/base_agent.py and src/agents/issues/issue_agent.py.

Python values decoded by the standard json module are modelled by the
inductive `Json`; Python exceptions are modelled by `Except PyErr`; a
try/except boundary is a match on the `Except` result.
-/

/-- Python values produced by json.loads.  Numbers keep their source lexeme,
since none of the embedded code ever computes with them. -/
inductive Json where
  | null
  | bool (b : Bool)
  | num (lexeme : String)
  | str (s : String)
  | arr (elems : List Json)
  | obj (fields : List (String × Json))

/-- Python exceptions that the embedded code can raise. -/
inductive PyErr where
  | typeError
  | keyError
  | nameError
deriving DecidableEq

/-- JSON whitespace characters accepted by Python json.loads. -/
def jsonWs (c : Char) : Bool :=
  c == ' ' || c == '\t' || c == '\n' || c == '\r'

/-- Drop leading JSON whitespace. -/
def skipWs : List Char → List Char
  | [] => []
  | c :: cs => if jsonWs c then skipWs cs else c :: cs

/-- Hex digit value, for the uXXXX escape of JSON strings. -/
def hexVal (c : Char) : Option Nat :=
  if '0' ≤ c ∧ c ≤ '9' then some (c.toNat - '0'.toNat)
  else if 'a' ≤ c ∧ c ≤ 'f' then some (c.toNat - 'a'.toNat + 10)
  else if 'A' ≤ c ∧ c ≤ 'F' then some (c.toNat - 'A'.toNat + 10)
  else none

/-- Body of a JSON string literal, after the opening quote: returns the decoded
string and the characters after the closing quote. -/
def parseJStringAux : List Char → List Char → Option (String × List Char)
  | _, [] => none
  | acc, c :: cs =>
    if c == '"' then some (String.mk acc.reverse, cs)
    else if c == '\\' then
      match cs with
      | [] => none
      | e :: cs2 =>
        if e == '"' then parseJStringAux ('"' :: acc) cs2
        else if e == '\\' then parseJStringAux ('\\' :: acc) cs2
        else if e == '/' then parseJStringAux ('/' :: acc) cs2
        else if e == 'n' then parseJStringAux ('\n' :: acc) cs2
        else if e == 't' then parseJStringAux ('\t' :: acc) cs2
        else if e == 'r' then parseJStringAux ('\r' :: acc) cs2
        else if e == 'b' then parseJStringAux (Char.ofNat 8 :: acc) cs2
        else if e == 'f' then parseJStringAux (Char.ofNat 12 :: acc) cs2
        else if e == 'u' then
          match cs2 with
          | h1 :: h2 :: h3 :: h4 :: cs3 =>
            match hexVal h1, hexVal h2, hexVal h3, hexVal h4 with
            | some a, some b, some c3, some d =>
              parseJStringAux (Char.ofNat (((a * 16 + b) * 16 + c3) * 16 + d) :: acc) cs3
            | _, _, _, _ => none
          | _ => none
        else none
    else parseJStringAux (c :: acc) cs

/-- Decimal digit test for the JSON number grammar. -/
def isDigitChar (c : Char) : Bool := '0' ≤ c && c ≤ '9'

/-- Split a leading run of decimal digits. -/
def takeDigits : List Char → List Char × List Char
  | [] => ([], [])
  | c :: cs =>
    if isDigitChar c then
      let p := takeDigits cs
      (c :: p.1, p.2)
    else ([], c :: cs)

/-- Optional fraction part of a JSON number: a dot followed by at least one
digit, otherwise nothing is consumed. -/
def parseFrac : List Char → List Char × List Char
  | [] => ([], [])
  | c :: cs =>
    if c == '.' then
      match takeDigits cs with
      | ([], _) => ([], c :: cs)
      | (d, r) => (c :: d, r)
    else ([], c :: cs)

/-- Optional exponent part of a JSON number. -/
def parseExp : List Char → List Char × List Char
  | [] => ([], [])
  | c :: cs =>
    if c == 'e' || c == 'E' then
      let sp : List Char × List Char :=
        match cs with
        | s :: r => if s == '+' || s == '-' then ([s], r) else ([], cs)
        | [] => ([], [])
      match takeDigits sp.2 with
      | ([], _) => ([], c :: cs)
      | (d, r) => (c :: (sp.1 ++ d), r)
    else ([], c :: cs)

/-- Maximal JSON number lexeme at the head of the input, mirroring the regular
expression used by Python json (no leading zeros, digit required after the
dot). -/
def parseJNumber (cs : List Char) : Option (String × List Char) :=
  let sp : List Char × List Char :=
    match cs with
    | '-' :: r => (['-'], r)
    | _ => ([], cs)
  match sp.2 with
  | [] => none
  | c :: r =>
    if c == '0' then
      let f := parseFrac r
      let e := parseExp f.2
      some (String.mk (sp.1 ++ ['0'] ++ f.1 ++ e.1), e.2)
    else if isDigitChar c then
      let d := takeDigits r
      let f := parseFrac d.2
      let e := parseExp f.2
      some (String.mk (sp.1 ++ (c :: d.1) ++ f.1 ++ e.1), e.2)
    else none

/-- Python dict assignment on an association list: a repeated key keeps its
original position and gets the new value, a new key is appended. -/
def dictSet (fields : List (String × Json)) (k : String) (v : Json) :
    List (String × Json) :=
  if fields.any (fun p => p.1 == k) then
    fields.map (fun p => if p.1 == k then (k, v) else p)
  else fields ++ [(k, v)]

mutual

/-- One JSON value at the head of the input (whitespace already skipped). -/
def parseJValue : Nat → List Char → Option (Json × List Char)
  | 0, _ => none
  | _ + 1, [] => none
  | fuel + 1, c :: cs =>
    if c == '{' then parseJObj fuel (skipWs cs)
    else if c == '[' then parseJArr fuel (skipWs cs)
    else if c == '"' then (parseJStringAux [] cs).map (fun p => (Json.str p.1, p.2))
    else if c == 't' then
      match cs with
      | 'r' :: 'u' :: 'e' :: r => some (Json.bool true, r)
      | _ => none
    else if c == 'f' then
      match cs with
      | 'a' :: 'l' :: 's' :: 'e' :: r => some (Json.bool false, r)
      | _ => none
    else if c == 'n' then
      match cs with
      | 'u' :: 'l' :: 'l' :: r => some (Json.null, r)
      | _ => none
    else (parseJNumber (c :: cs)).map (fun p => (Json.num p.1, p.2))

/-- Array body after the opening bracket (whitespace skipped). -/
def parseJArr : Nat → List Char → Option (Json × List Char)
  | 0, _ => none
  | _ + 1, [] => none
  | fuel + 1, c :: cs =>
    if c == ']' then some (Json.arr [], cs)
    else
      match parseJValue fuel (c :: cs) with
      | none => none
      | some (v, rest) => parseJArrRest fuel [v] (skipWs rest)

/-- Remaining array elements after at least one has been read. -/
def parseJArrRest : Nat → List Json → List Char → Option (Json × List Char)
  | 0, _, _ => none
  | _ + 1, _, [] => none
  | fuel + 1, acc, c :: cs =>
    if c == ']' then some (Json.arr acc, cs)
    else if c == ',' then
      match parseJValue fuel (skipWs cs) with
      | none => none
      | some (v, rest) => parseJArrRest fuel (acc ++ [v]) (skipWs rest)
    else none

/-- Object body after the opening brace (whitespace skipped). -/
def parseJObj : Nat → List Char → Option (Json × List Char)
  | 0, _ => none
  | _ + 1, [] => none
  | fuel + 1, c :: cs =>
    if c == '}' then some (Json.obj [], cs)
    else if c == '"' then
      match parseJStringAux [] cs with
      | none => none
      | some (k, rest) =>
        match skipWs rest with
        | ':' :: r2 =>
          match parseJValue fuel (skipWs r2) with
          | none => none
          | some (v, r3) => parseJObjRest fuel (dictSet [] k v) (skipWs r3)
        | _ => none
    else none

/-- Remaining object members after at least one has been read. -/
def parseJObjRest : Nat → List (String × Json) → List Char → Option (Json × List Char)
  | 0, _, _ => none
  | _ + 1, _, [] => none
  | fuel + 1, acc, c :: cs =>
    if c == '}' then some (Json.obj acc, cs)
    else if c == ',' then
      match skipWs cs with
      | '"' :: r =>
        match parseJStringAux [] r with
        | none => none
        | some (k, rest) =>
          match skipWs rest with
          | ':' :: r2 =>
            match parseJValue fuel (skipWs r2) with
            | none => none
            | some (v, r3) => parseJObjRest fuel (dictSet acc k v) (skipWs r3)
          | _ => none
      | _ => none
    else none

end

/-- Model of Python json.loads: decode one JSON document, allowing surrounding
whitespace; any leftover input is a decode error.  A decode failure stands for
json.JSONDecodeError. -/
def loads (raw : String) : Except Unit Json :=
  match parseJValue (2 * raw.length + 4) (skipWs raw.data) with
  | some (v, rest) => if (skipWs rest).isEmpty then Except.ok v else Except.error ()
  | none => Except.error ()

/-- SuggestionMap: category name to ordered sequence of suggestion values, as
an insertion-ordered association list (a Python dict). -/
abbrev SMap := List (String × List Json)

/-- Keys of a SuggestionMap, in insertion order. -/
def smapKeys (m : SMap) : List String := m.map (fun p => p.1)

/-- Python dict assignment for SuggestionMap values. -/
def smapSet (m : SMap) (k : String) (v : List Json) : SMap :=
  if m.any (fun p => p.1 == k) then
    m.map (fun p => if p.1 == k then (k, v) else p)
  else m ++ [(k, v)]

/-- Create-on-first-use append: suggestions.setdefault-style update used by the
line tiers (create the list on first append, then append at the end). -/
def smapAppend (m : SMap) (k : String) (v : Json) : SMap :=
  if m.any (fun p => p.1 == k) then
    m.map (fun p => if p.1 == k then (p.1, p.2 ++ [v]) else p)
  else m ++ [(k, [v])]

/-- Python dict lookup on decoded JSON object fields. -/
def dictLookup (fields : List (String × Json)) (k : String) : Option Json :=
  (fields.find? (fun p => p.1 == k)).map (fun p => p.2)

/-- Contiguous-sublist test used for Python substring membership. -/
def listSub : List Char → List Char → Bool
  | n, [] => n.isEmpty
  | n, c :: t => n.isPrefixOf (c :: t) || listSub n t

/-- Python membership test `k in data` for a string k against a decoded JSON
value: dict keys, list elements (only a str element can equal a str),
substring for str, TypeError otherwise. -/
def pyContains : Json → String → Except PyErr Bool
  | Json.obj fields, k => Except.ok (fields.any (fun p => p.1 == k))
  | Json.arr xs, k =>
    Except.ok (xs.any (fun x => match x with | Json.str s => s == k | _ => false))
  | Json.str s, k => Except.ok (listSub k.data s.data)
  | _, _ => Except.error PyErr.typeError

/-- Python subscript `data[k]` with a string key: dict lookup (KeyError when
absent), TypeError on every other value. -/
def pyGetItemStr : Json → String → Except PyErr Json
  | Json.obj fields, k =>
    match dictLookup fields k with
    | some v => Except.ok v
    | none => Except.error PyErr.keyError
  | _, _ => Except.error PyErr.typeError

/-- Python iteration `for s in v`: list elements, dict keys, one-character
strings of a str, TypeError otherwise. -/
def pyIter : Json → Except PyErr (List Json)
  | Json.arr xs => Except.ok xs
  | Json.obj fields => Except.ok (fields.map (fun p => Json.str p.1))
  | Json.str s => Except.ok (s.data.map (fun c => Json.str (String.mk [c])))
  | _ => Except.error PyErr.typeError

/-- Left-to-right projection of the suggestion field from each element, the
body of the comprehension [s['suggestion'] for s in v]; the first failing
element raises. -/
def mapGetSuggestion : List Json → Except PyErr (List Json)
  | [] => Except.ok []
  | s :: rest =>
    match pyGetItemStr s "suggestion" with
    | Except.error e => Except.error e
    | Except.ok v =>
      match mapGetSuggestion rest with
      | Except.error e => Except.error e
      | Except.ok vs => Except.ok (v :: vs)

/-- The list comprehension of the structured tier of _parse_analysis:
[s['suggestion'] for s in v]. -/
def suggestionComp (v : Json) : Except PyErr (List Json) :=
  match pyIter v with
  | Except.error e => Except.error e
  | Except.ok xs => mapGetSuggestion xs

/-- The four expected top-level keys of the structured tier of
_parse_analysis (src/ai_agent.py 172-183), paired with the category name each
one is stored under. -/
def knownKeys : List (String × String) :=
  [("code_improvements", "code_improvements"),
   ("documentation_gaps", "documentation"),
   ("testing_needs", "testing"),
   ("performance_optimizations", "performance")]

/-- One if-statement of the structured tier: when the expected key is
present, project its value and store the result under the key's category
name; any exception raised on the way propagates. -/
def structStep (data : Json) (acc : SMap) (kt : String × String) :
    Except PyErr SMap :=
  match pyContains data kt.1 with
  | Except.error e => Except.error e
  | Except.ok present =>
    if present then
      match pyGetItemStr data kt.1 with
      | Except.error e => Except.error e
      | Except.ok v =>
        match suggestionComp v with
        | Except.error e => Except.error e
        | Except.ok vs => Except.ok (smapSet acc kt.2 vs)
    else Except.ok acc

/-- Run the structured tier's if-statements in order; the first exception
aborts the remaining ones, as in Python. -/
def structFold (data : Json) : List (String × String) → SMap → Except PyErr SMap
  | [], acc => Except.ok acc
  | kt :: kts, acc =>
    match structStep data acc kt with
    | Except.ok acc2 => structFold data kts acc2
    | Except.error e => Except.error e

/-- Structured tier of GitHubAIAssistant._parse_analysis: for each expected
key present in the decoded JSON, store the projected suggestion list; any
Python exception propagates out of the tier. -/
def structuredTier (data : Json) : Except PyErr SMap :=
  structFold data knownKeys []

/-- Python str.startswith as a character-list prefix test. -/
def strStartsWith (s p : String) : Bool := p.data.isPrefixOf s.data

/-- Python str.endswith as a character-list suffix test. -/
def strEndsWith (s p : String) : Bool := p.data.isSuffixOf s.data

/-- Split on a separator character, keeping empty segments, as Python
str.split with an explicit separator. -/
def splitOnChar (sep : Char) : List Char → List (List Char)
  | [] => [[]]
  | c :: cs =>
    if c == sep then [] :: splitOnChar sep cs
    else
      match splitOnChar sep cs with
      | [] => [[c]]
      | seg :: rest => (c :: seg) :: rest

/-- Python analysis.split on the newline character. -/
def pySplitNl (s : String) : List String :=
  (splitOnChar '\n' s.data).map String.mk

/-- Characters removed by Python str.strip with no argument (ASCII range). -/
def pyWsChar (c : Char) : Bool :=
  c == ' ' || c == '\t' || c == '\n' || c == '\r' ||
    c == Char.ofNat 11 || c == Char.ofNat 12

/-- Python str.strip(): remove leading and trailing whitespace. -/
def pyStrip (s : String) : String :=
  String.mk (((s.data.dropWhile pyWsChar).reverse.dropWhile pyWsChar).reverse)

/-- Cursor state of the line-scanning tiers: the current category (None until
a switching line is seen) and the suggestions collected so far. -/
structure ScanState where
  cur : Option String
  acc : SMap

/-- Python truthiness of the current-category variable (None and the empty
string are falsy). -/
def optTruthy : Option String → Bool
  | none => false
  | some s => s != ""

/-- One line of the numbered-list tier of _parse_analysis
(src/ai_agent.py 191-207): an ordinal marker 1.-4. switches the category to a
fixed name, any other non-blank line is appended (stripped) under the current
category when one is set. -/
def aiStep (st : ScanState) (rawLine : String) : ScanState :=
  let line := pyStrip rawLine
  if strStartsWith line "1." then { st with cur := some "code_improvements" }
  else if strStartsWith line "2." then { st with cur := some "documentation" }
  else if strStartsWith line "3." then { st with cur := some "testing" }
  else if strStartsWith line "4." then { st with cur := some "performance" }
  else if optTruthy st.cur && line != "" then
    match st.cur with
    | some c => { st with acc := smapAppend st.acc c (Json.str line) }
    | none => st
  else st

/-- Numbered-list tier of _parse_analysis over an explicit list of lines. -/
def aiScanLines (lines : List String) : SMap :=
  (lines.foldl aiStep { cur := none, acc := [] }).acc

/-- Numbered-list tier of _parse_analysis on the raw string (split on the
newline character, as analysis.split). -/
def aiLineTier (raw : String) : SMap := aiScanLines (pySplitNl raw)

/-- Body of GitHubAIAssistant._parse_analysis (src/ai_agent.py 165-214)
before its outermost exception handler: try json.loads; on a decode error
fall through to the numbered-list tier (which cannot raise); any other
exception escapes. -/
def parseAnalysisBody (raw : String) : Except PyErr SMap :=
  match loads raw with
  | Except.ok data => structuredTier data
  | Except.error _ => Except.ok (aiLineTier raw)

/-- GitHubAIAssistant._parse_analysis (src/ai_agent.py 165-214): the outer
try/except turns any internal exception into the empty mapping. -/
def parse_analysis (raw : String) : SMap :=
  match parseAnalysisBody raw with
  | Except.ok m => m
  | Except.error _ => []

/-- Normalized category label of the colon convention: lower-case and replace
spaces by underscores (specialized_agents.py 355). -/
def normalizeLabel (s : String) : String :=
  String.mk ((s.data.map Char.toLower).map (fun c => if c == ' ' then '_' else c))

/-- One line of the label tier of TestAutomationAgent._parse_response
(src/specialized_agents.py 348-362): a colon-terminated line switches (and
resets) the category to its normalized label; any other non-blank line is
appended under the current category, wrapped in the category/priority
footer. -/
def spStep (st : ScanState) (rawLine : String) : ScanState :=
  let line := pyStrip rawLine
  if strEndsWith line ":" then
    let cat := normalizeLabel (String.mk line.data.dropLast)
    { cur := some cat, acc := smapSet st.acc cat [] }
  else if optTruthy st.cur && line != "" then
    match st.cur with
    | some c =>
      let body := line ++ "\nCategory: " ++ c ++ "\nPriority: Medium\n"
      { st with acc := smapAppend st.acc c (Json.str body) }
    | none => st
  else st

/-- Label tier of _parse_response over an explicit list of lines. -/
def spScanLines (lines : List String) : SMap :=
  (lines.foldl spStep { cur := none, acc := [] }).acc

/-- Body of TestAutomationAgent._parse_response
(src/specialized_agents.py 340-365) before its exception handler.  The module
imports os, typing, google.generativeai, github3.login, dotenv and pydantic
but never imports json, so the branch for content starting with an opening
brace evaluates json.loads with json unbound and raises NameError. -/
def parseResponseBody (raw : String) : Except PyErr SMap :=
  if strStartsWith raw "\x7b" then Except.error PyErr.nameError
  else Except.ok (spScanLines (pySplitNl raw))

/-- TestAutomationAgent._parse_response (src/specialized_agents.py 340-365):
the catch-all except turns any internal exception into the empty mapping. -/
def parse_response (raw : String) : SMap :=
  match parseResponseBody raw with
  | Except.ok m => m
  | Except.error _ => []

/-- One commit as used when formatting repository information. -/
structure CommitSummary where
  message : String
  authorName : String
deriving DecidableEq

/-- Fields gathered by BaseAgent._get_repository_info
(src/agents/base_agent.py 22-33). -/
structure RepositoryInfo where
  description : String
  languages : List (String × Nat)
  stars : Nat
  forks : Nat
  watchers : Nat
  open_issues_count : Nat
  default_branch : String
  recent_commits : List CommitSummary
deriving DecidableEq

/-- A repository reference: owner and name. -/
abbrev RepoId := String × String

/-- Mutable state of a BaseAgent instance: the bound repository object and the
repository-information snapshot stored by __init__. -/
structure BaseAgentState where
  repo : RepoId
  repo_info : RepositoryInfo
deriving DecidableEq

/-- BaseAgent.__init__ (src/agents/base_agent.py 11-21): bind the repository
and store self.repo_info = self._get_repository_info() once, at construction
time.  The hosting service is the function host from a repository reference to
its metadata. -/
def baseAgentInit (host : RepoId → RepositoryInfo) (owner name : String) :
    BaseAgentState :=
  { repo := (owner, name), repo_info := host (owner, name) }

/-- Per-request repository rebinding done by the service facade
(src/api.py 89-90): issue_agent.repo = issue_agent.gh.repository(owner, repo).
Only the repo field is assigned; repo_info is not recomputed. -/
def rebindRepo (st : BaseAgentState) (owner name : String) : BaseAgentState :=
  { st with repo := (owner, name) }

/-- The repository metadata that IssueReportingAgent.analyze_issues embeds in
its prompt: _format_repo_info (src/agents/issues/issue_agent.py 68-80) reads
self.repo_info, the snapshot stored by __init__. -/
def analyzeIssuesInfo (st : BaseAgentState) : RepositoryInfo :=
  st.repo_info

/-- Record returned for one successfully created issue
(BaseAgent.create_issue success branch). -/
structure CreatedIssueRecord where
  number : Nat
  url : String
deriving DecidableEq

/-- IssueReportingAgent.create_issues (src/agents/issues/issue_agent.py
45-66): for every suggestion of every category, call self.create_issue and
append the result only when its status is success.  createIssue models
await self.create_issue(title, body) for the title and body synthesized from
the category and suggestion; it returns none when create_issue reported an
error status (BaseAgent.create_issue catches the hosting-service exception
itself and returns an error record, so the call never raises).  The first
component is created_issues; the second logs every attempted
(category, suggestion) pair in order. -/
def create_issues (createIssue : String → Json → Option CreatedIssueRecord)
    (analysis : SMap) : List CreatedIssueRecord × List (String × Json) :=
  analysis.foldl
    (fun res cat =>
      cat.2.foldl
        (fun res2 s =>
          match createIssue cat.1 s with
          | some r => (res2.1 ++ [r], res2.2 ++ [(cat.1, s)])
          | none => (res2.1, res2.2 ++ [(cat.1, s)]))
        res)
    ([], [])

/-- The issues_created counter of the analyze_issues endpoint
(src/api.py 97-105): the loop body evaluates
issue_agent.create_issue(title=..., body=suggestion) without awaiting the
returned coroutine (so no hosting-service call is performed and no result is
inspected) and then increments the counter unconditionally, once per
suggestion. -/
def apiIssuesCreated (analysis : SMap) : Nat :=
  analysis.foldl (fun n cat => cat.2.foldl (fun m _ => m + 1) n) 0

/-- Fields a request body may carry, as read by repo_data.get(...)
(absent keys give None). -/
structure ApiRequest where
  owner : Option String
  repo : Option String
  title : Option String
  body : Option String
  pr_number : Option Nat

/-- External calls a handler can make, in order. -/
inductive ExtCall where
  | ghRepository (owner name : String)
  | agentAnalyze
deriving DecidableEq

/-- External collaborators of the endpoints: whether
gh.repository(owner, repo) succeeds, and the analysis the agent returns.
BaseAgent.analyze catches its own exceptions, so the analyze call itself
never raises. -/
structure World where
  repoOk : Bool
  analysis : SMap

/-- Python truthiness of a .get result: None and the empty string are
falsy. -/
def truthyField : Option String → Bool
  | none => false
  | some s => s != ""

/-- Status code and trace of external calls produced by one handler run. -/
structure EndpointResult where
  status : Nat
  calls : List ExtCall
deriving DecidableEq

/-- The analyze_issues endpoint (src/api.py 77-116).  The whole body sits in
one try; raise HTTPException(status_code=400) on a missing owner or repo is an
Exception, so the catch-all except re-raises it as HTTPException(500, str(e)):
the request is rejected before any external call, but with a 500 status.  On
the success path the handler rebinds the repository, awaits
issue_agent.analyze_issues(), runs the (never awaited) create_issue loop and
returns 200. -/
def analyze_issues_endpoint (w : World) (req : ApiRequest) : EndpointResult :=
  if truthyField req.owner && truthyField req.repo then
    match req.owner, req.repo with
    | some o, some r =>
      if w.repoOk then
        { status := 200, calls := [ExtCall.ghRepository o r, ExtCall.agentAnalyze] }
      else { status := 500, calls := [ExtCall.ghRepository o r] }
    | _, _ => { status := 500, calls := [] }
  else { status := 500, calls := [] }

/-- The create/issue endpoint (src/api.py 179-209).  Missing owner, repo,
title or body raises HTTPException(400), which the catch-all except converts
to a 500 before any external call.  When validation passes, the handler calls
gh.repository, then evaluates issue_agent.create_issue(title, body) without
awaiting it; reading issue.title on the coroutine raises AttributeError,
which the catch-all also converts to a 500. -/
def create_issue_endpoint (w : World) (req : ApiRequest) : EndpointResult :=
  if truthyField req.owner && truthyField req.repo &&
      truthyField req.title && truthyField req.body then
    match req.owner, req.repo with
    | some o, some r =>
      if w.repoOk then { status := 500, calls := [ExtCall.ghRepository o r] }
      else { status := 500, calls := [ExtCall.ghRepository o r] }
    | _, _ => { status := 500, calls := [] }
  else { status := 500, calls := [] }

/-- Concrete hosting service used by the repository-rebinding
counterexample: each repository's description names it. -/
def demoHost : RepoId → RepositoryInfo :=
  fun r =>
    { description := r.1 ++ "/" ++ r.2, languages := [], stars := 0, forks := 0,
      watchers := 0, open_issues_count := 0, default_branch := "main",
      recent_commits := [] }

/-- Concrete issue-creation oracle for the fan-out evaluation: filing the
suggestion s1 fails, every other string suggestion succeeds. -/
def demoCreate : String → Json → Option CreatedIssueRecord :=
  fun _ s =>
    match s with
    | Json.str t => if t == "s1" then none else some { number := 1, url := "issue-url" }
    | _ => none

/-- Concrete analysis map with two suggestions in one category. -/
def demoAnalysis : SMap := [("testing", [Json.str "s1", Json.str "s2"])]

/-- C1: the response parsers never raise past their boundary.  Both
_parse_analysis and _parse_response are total and their outermost handler maps
every internal exception to the empty mapping; for input that the JSON tier
rejects and on which the line tier collects nothing, the result is the empty
mapping. -/
theorem c1_parse_never_raises (raw : String) :
    (∀ e, parseAnalysisBody raw = Except.error e → parse_analysis raw = []) ∧
    (∀ e, parseResponseBody raw = Except.error e → parse_response raw = []) ∧
    (loads raw = Except.error () → aiLineTier raw = [] → parse_analysis raw = []) ∧
    (strStartsWith raw "\x7b" = false → spScanLines (pySplitNl raw) = [] →
      parse_response raw = []) := by
  refine ⟨fun e h => ?_, fun e h => ?_, fun h1 h2 => ?_, fun h1 h2 => ?_⟩
  · simp [parse_analysis, h]
  · simp [parse_response, h]
  · simp [parse_analysis, parseAnalysisBody, h1, h2]
  · simp [parse_response, parseResponseBody, h1, h2]

/-- Witness for C1 at the empty input: both parsers return the empty mapping
on the empty string, via both the unparseable-input implications. -/
theorem c1_witness :
    parse_analysis "" = [] ∧ parse_response "" = [] := by
  exact ⟨(c1_parse_never_raises "").2.2.1 rfl rfl,
    (c1_parse_never_raises "").2.2.2 rfl rfl⟩

/-- C2 (code bug evaluation): over the analysis with suggestions s1 and s2
where filing s1 fails, the analyze_issues endpoint counter
(src/api.py 97-105) reports 2 because it increments once per suggestion
without awaiting create_issue or checking its result, while
IssueReportingAgent.create_issues (src/agents/issues/issue_agent.py 45-66)
attempts both suggestions and collects exactly the 1 successful creation. -/
theorem c2_fanout_count_bug :
    apiIssuesCreated demoAnalysis = 2 ∧
    (create_issues demoCreate demoAnalysis).1.length = 1 ∧
    (create_issues demoCreate demoAnalysis).2 =
      [("testing", Json.str "s1"), ("testing", Json.str "s2")] ∧
    apiIssuesCreated demoAnalysis ≠ (create_issues demoCreate demoAnalysis).1.length := by
  refine ⟨rfl, rfl, rfl, by decide⟩

/-- C8 (code bug evaluation): a request missing a required field makes no
external call, but the handler answers 500, not a 4xx: the
HTTPException(400) raised by the validation check is itself caught by the
handler's catch-all except and re-raised as HTTPException(500). -/
theorem c8_validation_surfaces_as_500 (w : World) :
    analyze_issues_endpoint w ⟨none, none, none, none, none⟩ =
      { status := 500, calls := [] } ∧
    analyze_issues_endpoint w ⟨some "octo", none, none, none, none⟩ =
      { status := 500, calls := [] } ∧
    create_issue_endpoint w ⟨some "octo", some "demo", some "a title", none, none⟩ =
      { status := 500, calls := [] } := by
  refine ⟨rfl, rfl, rfl⟩

/-- C9 counterexample: the repository snapshot is not refetched.  After the
facade rebinds the agent from alice/one to bob/two, the next analysis still
formats the metadata of alice/one. -/
theorem c9_rebind_uses_stale_info :
    analyzeIssuesInfo (rebindRepo (baseAgentInit demoHost "alice" "one") "bob" "two") =
      demoHost ("alice", "one") ∧
    analyzeIssuesInfo (rebindRepo (baseAgentInit demoHost "alice" "one") "bob" "two") ≠
      demoHost ("bob", "two") := by
  exact ⟨rfl, by decide⟩

/-- C9 amended: BaseAgent fetches the repository information once, in
__init__, and caches it in repo_info; the facade's rebinding assigns only the
repo field, so the next analysis always uses the metadata of the repository
bound at construction time, whatever the hosting service and the rebinding
arguments. -/
theorem c9_amended_info_cached (host : RepoId → RepositoryInfo)
    (o n o2 n2 : String) :
    analyzeIssuesInfo (rebindRepo (baseAgentInit host o n) o2 n2) = host (o, n) := rfl

/-- C10: the structured tier of _parse_response can never succeed.  Whenever
the input starts with an opening brace, the json.loads call evaluates the
unbound name json, the NameError is swallowed by the catch-all handler, and
the parser returns the empty mapping. -/
theorem c10_sp_json_tier_dead (raw : String)
    (h : strStartsWith raw "\x7b" = true) : parse_response raw = [] := by
  simp [parse_response, parseResponseBody, h]

/-- Witness for C10 at a well-formed JSON document of the supported shape. -/
theorem c10_witness :
    strStartsWith "\x7b\"bug_reports\": [\"b1\"]\x7d" "\x7b" = true ∧
    parse_response "\x7b\"bug_reports\": [\"b1\"]\x7d" = [] := by
  exact ⟨rfl, c10_sp_json_tier_dead _ rfl⟩

/-- C3 counterexample: on the claim's example input the numbered-list tier
files the continuation line under the fixed first category name
code_improvements, discards the text that follows each ordinal marker on the
marker line, and never produces the claimed keys tests and documentation. -/
theorem c3_marker_text_dropped :
    parse_analysis "1. Add tests\nfor edge cases\n2. Improve docs\n" =
      [("code_improvements", [Json.str "for edge cases"])] ∧
    smapKeys (parse_analysis "1. Add tests\nfor edge cases\n2. Improve docs\n") ≠
      ["tests", "documentation"] := by
  exact ⟨rfl, by decide⟩

/-- C5 counterexample: a valid JSON object whose known key holds an array of
strings parses to the empty mapping, not to that sequence: the comprehension
indexes each string with the suggestion key, the TypeError reaches the
catch-all handler, and the whole parse collapses to the empty mapping. -/
theorem c5_array_of_strings_collapses :
    parse_analysis "\x7b\"code_improvements\": [\"Add type hints\", \"Remove dead code\"]\x7d" = [] ∧
    smapKeys (parse_analysis
        "\x7b\"code_improvements\": [\"Add type hints\", \"Remove dead code\"]\x7d") ≠
      ["code_improvements"] := by
  exact ⟨rfl, by decide⟩

/-- C7 counterexample: a known key with an unsupported value is not skipped
silently.  With code_improvements well-shaped and documentation_gaps bound to
the number 5, the parse returns the empty mapping instead of the extraction
of the well-shaped key. -/
theorem c7_bad_shape_not_skipped :
    parse_analysis
        "\x7b\"code_improvements\": [\x7b\"suggestion\": \"a\"\x7d], \"documentation_gaps\": 5\x7d" = [] ∧
    smapKeys (parse_analysis
        "\x7b\"code_improvements\": [\x7b\"suggestion\": \"a\"\x7d], \"documentation_gaps\": 5\x7d") ≠
      ["code_improvements"] := by
  exact ⟨rfl, by decide⟩

/-- C6 counterexample: neither parse implementation handles both switching
conventions.  The specialized parser leaves an ordinal input completely
ungrouped, the ai parser leaves a colon-labelled input completely ungrouped,
and at the step level a colon line does not switch the ai cursor while an
ordinal line does not switch the specialized cursor. -/
theorem c6_single_convention_each :
    parse_response "1. Bug Reports\nNull deref\n" = [] ∧
    parse_analysis "Code Quality:\nUse a linter\n" = [] ∧
    (aiStep { cur := none, acc := [] } "Code Quality:").cur = none ∧
    (spStep { cur := some "bug_reports", acc := [] } "1. More bugs").cur =
      some "bug_reports" := by
  exact ⟨rfl, rfl, rfl, rfl⟩

/-- C6 amended: each unstructured tier supports exactly one switching
convention.  The ai_agent tier changes the current category only on a line
whose stripped form starts with an ordinal marker 1.-4. (in particular a
colon-terminated line never switches it), while the specialized_agents tier
changes the current category exactly on a colon-terminated line, to the
normalized label, and never on any other line (in particular not on an
ordinal line). -/
theorem c6_amended_one_convention_each (st : ScanState) (line : String) :
    (strStartsWith (pyStrip line) "1." = false →
     strStartsWith (pyStrip line) "2." = false →
     strStartsWith (pyStrip line) "3." = false →
     strStartsWith (pyStrip line) "4." = false →
     (aiStep st line).cur = st.cur) ∧
    (strEndsWith (pyStrip line) ":" = true →
     (spStep st line).cur = some (normalizeLabel (String.mk (pyStrip line).data.dropLast))) ∧
    (strEndsWith (pyStrip line) ":" = false →
     (spStep st line).cur = st.cur) := by
  refine ⟨fun h1 h2 h3 h4 => ?_, fun h => ?_, fun h => ?_⟩
  · unfold aiStep
    simp only [h1, h2, h3, h4, if_false, Bool.false_eq_true]
    split
    · cases hc : st.cur <;> simp [hc]
    · rfl
  · unfold spStep
    simp [h]
  · unfold spStep
    simp only [h, if_false, Bool.false_eq_true]
    split
    · cases hc : st.cur <;> simp [hc]
    · rfl

/-- Witness for the amended C6 at concrete lines: a colon line does not
switch the ai cursor but does switch the specialized cursor, and an ordinal
line does not switch the specialized cursor. -/
theorem c6_amended_witness :
    (aiStep { cur := some "testing", acc := [] } "Unit Tests:").cur = some "testing" ∧
    (spStep { cur := none, acc := [] } "Unit Tests:").cur = some "unit_tests" ∧
    (spStep { cur := some "unit_tests", acc := [] } "3. Performance").cur =
      some "unit_tests" := by
  refine ⟨(c6_amended_one_convention_each _ _).1 rfl rfl rfl rfl, ?_, ?_⟩
  · exact (c6_amended_one_convention_each { cur := none, acc := [] } "Unit Tests:").2.1 rfl
  · exact (c6_amended_one_convention_each _ "3. Performance").2.2 rfl

/-- A present key makes the key test of the structured tier true. -/
theorem any_key_of_dictLookup_some (kvs : List (String × Json)) (k : String)
    (v : Json) (h : dictLookup kvs k = some v) :
    kvs.any (fun p => p.1 == k) = true := by
  rcases hf : kvs.find? (fun p => p.1 == k) with _ | p
  · simp [dictLookup, hf] at h
  · have hm := List.mem_of_find?_eq_some hf
    have hp := List.find?_some hf
    exact List.any_eq_true.mpr ⟨p, hm, hp⟩

/-- An absent key makes the key test of the structured tier false. -/
theorem any_key_of_dictLookup_none (kvs : List (String × Json)) (k : String)
    (h : dictLookup kvs k = none) :
    kvs.any (fun p => p.1 == k) = false := by
  rcases hf : kvs.find? (fun p => p.1 == k) with _ | p
  · cases ha : kvs.any (fun p => p.1 == k)
    · rfl
    · obtain ⟨p, hp, hpk⟩ := List.any_eq_true.mp ha
      rw [List.find?_eq_none] at hf
      exact absurd hpk (hf p hp)
  · simp [dictLookup, hf] at h

/-- The projection the structured tier performs on one suggestion record. -/
def projSuggestion (r : Json) : Json :=
  match r with
  | Json.obj fs => (dictLookup fs "suggestion").getD Json.null
  | _ => Json.null

/-- A suggestion record: an object carrying the suggestion key. -/
def recOk (r : Json) : Bool :=
  match r with
  | Json.obj fs => (dictLookup fs "suggestion").isSome
  | _ => false

/-- On a list of suggestion records the comprehension body succeeds and
produces the field projection, in order. -/
theorem mapGetSuggestion_records (rs : List Json)
    (h : ∀ r ∈ rs, recOk r = true) :
    mapGetSuggestion rs = Except.ok (rs.map projSuggestion) := by
  induction rs with
  | nil => rfl
  | cons r rest ih =>
    have hr : recOk r = true := h r (List.mem_cons_self r rest)
    have hrest := ih (fun x hx => h x (List.mem_cons_of_mem r hx))
    cases r with
    | obj fs =>
      rcases hs : dictLookup fs "suggestion" with _ | s
      · rw [recOk, hs] at hr
        simp at hr
      · simp [mapGetSuggestion, pyGetItemStr, hs, hrest, projSuggestion, List.map_cons]
    | null => exact Bool.noConfusion hr
    | bool b => exact Bool.noConfusion hr
    | num l => exact Bool.noConfusion hr
    | str s => exact Bool.noConfusion hr
    | arr xs => exact Bool.noConfusion hr

/-- A dict assignment to a fresh key appends it at the end. -/
theorem smapSet_absent (m : SMap) (k : String) (v : List Json)
    (h : m.any (fun p => p.1 == k) = false) : smapSet m k v = m ++ [(k, v)] := by
  simp [smapSet, h]

/-- An if-statement of the structured tier over an absent key leaves the
suggestions unchanged. -/
theorem structStep_absent (kvs : List (String × Json)) (acc : SMap)
    (k t : String) (h : dictLookup kvs k = none) :
    structStep (Json.obj kvs) acc (k, t) = Except.ok acc := by
  unfold structStep
  simp [pyContains, any_key_of_dictLookup_none kvs k h]

/-- An if-statement of the structured tier over a present array of suggestion
records stores the field projection under the category name. -/
theorem structStep_records (kvs : List (String × Json)) (acc : SMap)
    (k t : String) (rs : List Json)
    (h : dictLookup kvs k = some (Json.arr rs))
    (hr : ∀ r ∈ rs, recOk r = true) :
    structStep (Json.obj kvs) acc (k, t) =
      Except.ok (smapSet acc t (rs.map projSuggestion)) := by
  unfold structStep
  simp [pyContains, any_key_of_dictLookup_some kvs k _ h, pyGetItemStr, h,
    suggestionComp, pyIter, mapGetSuggestion_records rs hr]

/-- An if-statement over a present key whose projection raises propagates the
exception. -/
theorem structStep_err (kvs : List (String × Json)) (acc : SMap)
    (k t : String) (v : Json) (e : PyErr)
    (h : dictLookup kvs k = some v)
    (he : suggestionComp v = Except.error e) :
    structStep (Json.obj kvs) acc (k, t) = Except.error e := by
  unfold structStep
  simp [pyContains, any_key_of_dictLookup_some kvs k _ h, pyGetItemStr, h, he]

/-- When one expected key's if-statement raises whatever the suggestions
collected so far, the whole structured tier raises. -/
theorem structFold_error_of_mem (data : Json) (kt : String × String) :
    ∀ (kts : List (String × String)), kt ∈ kts →
      (∀ acc, ∃ e, structStep data acc kt = Except.error e) →
      ∀ acc, ∃ e, structFold data kts acc = Except.error e := by
  intro kts
  induction kts with
  | nil => intro hmem; exact absurd hmem (List.not_mem_nil kt)
  | cons a rest ih =>
    intro hmem herr acc
    rcases List.mem_cons.mp hmem with hhead | htail
    · subst hhead
      obtain ⟨e, he⟩ := herr acc
      exact ⟨e, by simp [structFold, he]⟩
    · cases hstep : structStep data acc a with
      | error e => exact ⟨e, by simp [structFold, hstep]⟩
      | ok acc2 =>
        obtain ⟨e, he⟩ := ih htail herr acc2
        exact ⟨e, by simp [structFold, hstep, he]⟩

/-- Value shape hypothesis of the confirmed structured-tier theorem: each
expected key is absent or bound to an array of suggestion records. -/
def goodVal (kvs : List (String × Json)) (kt : String × String) : Prop :=
  match dictLookup kvs kt.1 with
  | none => True
  | some (Json.arr rs) => ∀ r ∈ rs, recOk r = true
  | some _ => False

/-- Specification-side description of the structured tier, following the
spec's words: walk the expected keys in order and, for each one bound to an
array of records, append the projected suggestion sequence under the key's
category name, preserving order. -/
def specProjFold (kvs : List (String × Json)) (kts : List (String × String))
    (acc : SMap) : SMap :=
  kts.foldl
    (fun a kt =>
      match dictLookup kvs kt.1 with
      | some (Json.arr rs) => a ++ [(kt.2, rs.map projSuggestion)]
      | _ => a)
    acc

/-- Specification-side projection over the four expected keys. -/
def specKnownProjection (kvs : List (String × Json)) : SMap :=
  specProjFold kvs knownKeys []

/-- The structured tier agrees with the specification-side projection when
every expected key is absent or well-shaped and the category names are
pairwise distinct and fresh. -/
theorem structFold_spec (kvs : List (String × Json)) :
    ∀ (kts : List (String × String)) (acc : SMap),
      (∀ kt ∈ kts, goodVal kvs kt) →
      (∀ kt ∈ kts, acc.any (fun p => p.1 == kt.2) = false) →
      kts.Pairwise (fun a b => a.2 ≠ b.2) →
      structFold (Json.obj kvs) kts acc = Except.ok (specProjFold kvs kts acc) := by
  intro kts
  induction kts with
  | nil => intro acc _ _ _; rfl
  | cons kt rest ih =>
    intro acc hg hf hp
    obtain ⟨k, t⟩ := kt
    have hgkt : goodVal kvs (k, t) := hg (k, t) (List.mem_cons_self _ _)
    have hpc := List.pairwise_cons.mp hp
    rcases hl : dictLookup kvs k with _ | v
    · have hstep := structStep_absent kvs acc k t hl
      have hrest := ih acc (fun x hx => hg x (List.mem_cons_of_mem _ hx))
        (fun x hx => hf x (List.mem_cons_of_mem _ hx)) hpc.2
      simp only [structFold, hstep, specProjFold, List.foldl_cons, hl]
      exact hrest
    · unfold goodVal at hgkt
      rw [hl] at hgkt
      cases v with
      | arr rs =>
        have hstep := structStep_records kvs acc k t rs hl hgkt
        have hacc : smapSet acc t (rs.map projSuggestion) =
            acc ++ [(t, rs.map projSuggestion)] :=
          smapSet_absent acc t _ (hf (k, t) (List.mem_cons_self _ _))
        have hfresh : ∀ x ∈ rest,
            (acc ++ [(t, rs.map projSuggestion)]).any (fun p => p.1 == x.2) = false := by
          intro x hx
          have h1 : acc.any (fun p => p.1 == x.2) = false :=
            hf x (List.mem_cons_of_mem _ hx)
          have h2 : (t == x.2) = false := by
            exact beq_eq_false_iff_ne.mpr (hpc.1 x hx)
          simp [List.any_append, h1, h2]
        have hrest := ih (acc ++ [(t, rs.map projSuggestion)])
          (fun x hx => hg x (List.mem_cons_of_mem _ hx)) hfresh hpc.2
        simp only [structFold, hstep, hacc, specProjFold, List.foldl_cons, hl]
        exact hrest
      | null => exact absurd hgkt (by simp)
      | bool b => exact absurd hgkt (by simp)
      | num l => exact absurd hgkt (by simp)
      | str s => exact absurd hgkt (by simp)
      | obj fs => exact absurd hgkt (by simp)

/-- Shape hypothesis of C4 as a decidable check: every expected key is either
absent or bound to an array of suggestion records. -/
def recordArrays (kvs : List (String × Json)) : Bool :=
  knownKeys.all
    (fun kt =>
      match dictLookup kvs kt.1 with
      | none => true
      | some (Json.arr rs) => rs.all recOk
      | some _ => false)

/-- C4: for every JSON input whose expected-key values are arrays of records
carrying a suggestion field, _parse_analysis returns the specification-side
projection: the suggestion fields of each present expected key, in array
order, stored under the key's category name. -/
theorem c4_structured_projection (raw : String) (kvs : List (String × Json))
    (h1 : loads raw = Except.ok (Json.obj kvs))
    (h2 : recordArrays kvs = true) :
    parse_analysis raw = specKnownProjection kvs := by
  have hg : ∀ kt ∈ knownKeys, goodVal kvs kt := by
    intro kt hkt
    have hall := List.all_eq_true.mp h2 kt hkt
    unfold goodVal
    rcases hl : dictLookup kvs kt.1 with _ | v
    · trivial
    · rw [hl] at hall
      cases v with
      | arr rs => exact List.all_eq_true.mp hall
      | null => exact Bool.noConfusion hall
      | bool b => exact Bool.noConfusion hall
      | num l => exact Bool.noConfusion hall
      | str s => exact Bool.noConfusion hall
      | obj fs => exact Bool.noConfusion hall
  have hfold := structFold_spec kvs knownKeys [] hg (fun kt _ => rfl) (by decide)
  simp [parse_analysis, parseAnalysisBody, h1, structuredTier, hfold, specKnownProjection]

/-- Witness for C4 at the claim's example input. -/
theorem c4_example_witness :
    parse_analysis "\x7b\"code_improvements\": [\x7b\"suggestion\": \"Add type hints\"\x7d, \x7b\"suggestion\": \"Remove dead code\"\x7d]\x7d" =
      [("code_improvements", [Json.str "Add type hints", Json.str "Remove dead code"])] := by
  have h := c4_structured_projection
    "\x7b\"code_improvements\": [\x7b\"suggestion\": \"Add type hints\"\x7d, \x7b\"suggestion\": \"Remove dead code\"\x7d]\x7d"
    [("code_improvements",
      Json.arr [Json.obj [("suggestion", Json.str "Add type hints")],
        Json.obj [("suggestion", Json.str "Remove dead code")]])]
    rfl rfl
  exact h.trans rfl

/-- C5 amended: a valid JSON object binding an expected key to a nonempty
array whose first element is a plain string makes the whole parse collapse to
the empty mapping: indexing the string with the suggestion key raises a
TypeError that the catch-all handler converts to the empty result. -/
theorem c5_amended_strings_collapse (raw : String) (kvs : List (String × Json))
    (src tgt s0 : String) (rest : List Json)
    (h1 : loads raw = Except.ok (Json.obj kvs))
    (h2 : (src, tgt) ∈ knownKeys)
    (h3 : dictLookup kvs src = some (Json.arr (Json.str s0 :: rest))) :
    parse_analysis raw = [] := by
  have herr : ∀ acc, ∃ e, structStep (Json.obj kvs) acc (src, tgt) = Except.error e :=
    fun acc => ⟨PyErr.typeError, structStep_err kvs acc src tgt _ _ h3 rfl⟩
  obtain ⟨e, he⟩ := structFold_error_of_mem (Json.obj kvs) (src, tgt) knownKeys h2 herr []
  simp [parse_analysis, parseAnalysisBody, h1, structuredTier, he]

/-- Witness for the amended C5 at the counterexample input. -/
theorem c5_amended_witness :
    parse_analysis "\x7b\"code_improvements\": [\"Add type hints\", \"Remove dead code\"]\x7d" = [] := by
  exact c5_amended_strings_collapse _
    [("code_improvements", Json.arr [Json.str "Add type hints", Json.str "Remove dead code"])]
    "code_improvements" "code_improvements" "Add type hints" [Json.str "Remove dead code"]
    rfl (by decide) rfl

/-- All expected keys absent leaves the specification-side projection at its
start value. -/
theorem specProjFold_absent (kvs : List (String × Json)) :
    ∀ (kts : List (String × String)) (acc : SMap),
      (∀ kt ∈ kts, (dictLookup kvs kt.1).isNone = true) →
      specProjFold kvs kts acc = acc := by
  intro kts
  induction kts with
  | nil => intro acc _; rfl
  | cons kt rest ih =>
    intro acc h
    have hk := h kt (List.mem_cons_self _ _)
    rw [Option.isNone_iff_eq_none] at hk
    simp only [specProjFold, List.foldl_cons, hk]
    exact ih acc (fun x hx => h x (List.mem_cons_of_mem _ hx))

/-- C7 amended: in the structured tier, an expected key bound to a value on
which the suggestion projection raises is not skipped: the exception escapes
the tier and the whole parse returns the empty mapping, discarding every
other key's extraction.  Expected keys absent from the JSON remain a normal
case: when no expected key is present the parse returns the empty mapping
without any error, the keys simply being absent from the result. -/
theorem c7_amended_bad_shape_aborts (raw : String) (kvs : List (String × Json)) :
    (∀ src tgt v e, (src, tgt) ∈ knownKeys →
      loads raw = Except.ok (Json.obj kvs) →
      dictLookup kvs src = some v →
      suggestionComp v = Except.error e →
      parse_analysis raw = []) ∧
    (loads raw = Except.ok (Json.obj kvs) →
      knownKeys.all (fun kt => (dictLookup kvs kt.1).isNone) = true →
      parse_analysis raw = []) := by
  constructor
  · intro src tgt v e hmem h1 hl hcomp
    have herr : ∀ acc, ∃ e2, structStep (Json.obj kvs) acc (src, tgt) = Except.error e2 :=
      fun acc => ⟨e, structStep_err kvs acc src tgt v e hl hcomp⟩
    obtain ⟨e2, he⟩ := structFold_error_of_mem (Json.obj kvs) (src, tgt) knownKeys hmem herr []
    simp [parse_analysis, parseAnalysisBody, h1, structuredTier, he]
  · intro h1 hall
    have hg : ∀ kt ∈ knownKeys, goodVal kvs kt := by
      intro kt hkt
      have h := List.all_eq_true.mp hall kt hkt
      unfold goodVal
      rcases hl : dictLookup kvs kt.1 with _ | v
      · trivial
      · rw [hl] at h
        exact Bool.noConfusion h
    have hfold := structFold_spec kvs knownKeys [] hg (fun kt _ => rfl) (by decide)
    have hspec := specProjFold_absent kvs knownKeys [] (List.all_eq_true.mp hall)
    simp [parse_analysis, parseAnalysisBody, h1, structuredTier, hfold, hspec]

/-- Witness for the amended C7: a number under an expected key empties the
whole result, and a JSON object without any expected key parses to the empty
mapping without error. -/
theorem c7_amended_witness :
    parse_analysis "\x7b\"testing_needs\": 7\x7d" = [] ∧
    parse_analysis "\x7b\"other\": 1\x7d" = [] := by
  constructor
  · exact (c7_amended_bad_shape_aborts _ [("testing_needs", Json.num "7")]).1
      "testing_needs" "testing" (Json.num "7") PyErr.typeError (by decide) rfl rfl rfl
  · exact (c7_amended_bad_shape_aborts _ [("other", Json.num "1")]).2 rfl rfl

/-- A first append under a fresh category creates its entry at the end. -/
theorem smapAppend_absent (m : SMap) (k : String) (v : Json)
    (h : m.any (fun p => p.1 == k) = false) :
    smapAppend m k v = m ++ [(k, [v])] := by
  simp [smapAppend, h]

/-- An append under the category stored last extends its sequence. -/
theorem smapAppend_last (pre : SMap) (k : String) (vs : List Json) (v : Json)
    (h : pre.any (fun p => p.1 == k) = false) :
    smapAppend (pre ++ [(k, vs)]) k v = pre ++ [(k, vs ++ [v])] := by
  have hany : (pre ++ [(k, vs)]).any (fun p => p.1 == k) = true := by
    simp [List.any_append]
  unfold smapAppend
  rw [hany]
  simp only [if_true, List.map_append]
  have hpre : pre.map (fun p => if p.1 == k then (p.1, p.2 ++ [v]) else p) = pre := by
    have hmem : ∀ p ∈ pre, (p.1 == k) = false := by
      intro p hp
      cases hpk : (p.1 == k)
      · rfl
      · have hcontra : pre.any (fun q => q.1 == k) = true :=
          List.any_eq_true.mpr ⟨p, hp, hpk⟩
        rw [h] at hcontra
        exact Bool.noConfusion hcontra
    calc pre.map (fun p => if p.1 == k then (p.1, p.2 ++ [v]) else p)
        = pre.map id := List.map_congr_left (fun p hp => by simp [hmem p hp])
      _ = pre := List.map_id pre
  rw [hpre]
  simp

/-- Appending a run of values under the category stored last accumulates the
run in order. -/
theorem smapAppend_foldl (k : String) (f : String → Json) :
    ∀ (ls : List String) (pre : SMap) (vs : List Json),
      pre.any (fun p => p.1 == k) = false →
      List.foldl (fun a l => smapAppend a k (f l)) (pre ++ [(k, vs)]) ls =
        pre ++ [(k, vs ++ ls.map f)] := by
  intro ls
  induction ls with
  | nil => intro pre vs _; simp
  | cons l rest ih =>
    intro pre vs h
    rw [List.foldl_cons, smapAppend_last pre k vs (f l) h, ih pre (vs ++ [f l]) h]
    simp

/-- Appending a nonempty run of values under a fresh category creates its
entry at the end with the run in order. -/
theorem smapAppend_foldl_new (k : String) (f : String → Json)
    (l : String) (ls : List String) (pre : SMap)
    (h : pre.any (fun p => p.1 == k) = false) :
    List.foldl (fun a x => smapAppend a k (f x)) pre (l :: ls) =
      pre ++ [(k, (l :: ls).map f)] := by
  rw [List.foldl_cons, smapAppend_absent pre k (f l) h, smapAppend_foldl k f ls pre [f l] h]
  simp

/-- A content line of the numbered-list tier: non-blank after stripping and
not an ordinal marker. -/
def goodLine (l : String) : Bool :=
  pyStrip l != "" && !strStartsWith (pyStrip l) "1." && !strStartsWith (pyStrip l) "2." &&
    !strStartsWith (pyStrip l) "3." && !strStartsWith (pyStrip l) "4."

/-- With a category set, a content line is appended (stripped) under it. -/
theorem aiStep_content (st : ScanState) (l : String) (c : String)
    (hc : st.cur = some c) (hc2 : (c != "") = true) (hl : goodLine l = true) :
    aiStep st l = { st with acc := smapAppend st.acc c (Json.str (pyStrip l)) } := by
  rw [goodLine, Bool.and_eq_true, Bool.and_eq_true, Bool.and_eq_true, Bool.and_eq_true] at hl
  obtain ⟨⟨⟨⟨hne, h1⟩, h2⟩, h3⟩, h4⟩ := hl
  rw [Bool.not_eq_true'] at h1 h2 h3 h4
  unfold aiStep
  simp [h1, h2, h3, h4, hc, optTruthy, hc2, hne]

/-- Scanning a run of content lines with the cursor on a category appends
their stripped forms, in order, under that category. -/
theorem aiScan_fold_content (c : String) (hc2 : (c != "") = true) :
    ∀ (ls : List String) (st : ScanState), st.cur = some c →
      (∀ l ∈ ls, goodLine l = true) →
      List.foldl aiStep st ls =
        { cur := some c,
          acc := List.foldl (fun a l => smapAppend a c (Json.str (pyStrip l))) st.acc ls } := by
  intro ls
  induction ls with
  | nil =>
    intro st h1 _
    obtain ⟨cur, acc⟩ := st
    cases h1
    rfl
  | cons l rest ih =>
    intro st h1 h2
    rw [List.foldl_cons, aiStep_content st l c h1 hc2 (h2 l (List.mem_cons_self _ _)),
      List.foldl_cons]
    exact ih { st with acc := smapAppend st.acc c (Json.str (pyStrip l)) } h1
      (fun x hx => h2 x (List.mem_cons_of_mem _ hx))

/-- C3 amended: in the numbered-list tier the categories come from the fixed
positional list code_improvements, documentation, testing, performance, and
the text that follows an ordinal marker on the marker line is discarded: only
the subsequent lines, stripped and non-blank, are grouped under the
position-mapped category until the next marker.  On the claim's example input
the result is therefore a single entry holding the continuation line. -/
theorem c3_amended_ordinal_grouping :
    (∀ (m1 m2 l0 n0 : String) (ls ms : List String),
      strStartsWith (pyStrip m1) "1." = true →
      strStartsWith (pyStrip m2) "1." = false →
      strStartsWith (pyStrip m2) "2." = true →
      (∀ l ∈ l0 :: ls, goodLine l = true) →
      (∀ l ∈ n0 :: ms, goodLine l = true) →
      aiScanLines (m1 :: ((l0 :: ls) ++ m2 :: n0 :: ms)) =
        [("code_improvements", (l0 :: ls).map (fun l => Json.str (pyStrip l))),
         ("documentation", (n0 :: ms).map (fun l => Json.str (pyStrip l)))]) ∧
    parse_analysis "1. Add tests\nfor edge cases\n2. Improve docs\n" =
      [("code_improvements", [Json.str "for edge cases"])] := by
  constructor
  · intro m1 m2 l0 n0 ls ms h1 h2a h2b hls hms
    unfold aiScanLines
    rw [List.foldl_cons]
    have hstep1 : aiStep { cur := none, acc := [] } m1 =
        { cur := some "code_improvements", acc := [] } := by
      unfold aiStep
      simp [h1]
    rw [hstep1, List.foldl_append,
      aiScan_fold_content "code_improvements" rfl (l0 :: ls) _ rfl hls]
    rw [smapAppend_foldl_new "code_improvements" (fun l => Json.str (pyStrip l)) l0 ls [] rfl]
    rw [List.nil_append, List.foldl_cons]
    have hstep2 : aiStep
        { cur := some "code_improvements",
          acc := [("code_improvements", (l0 :: ls).map (fun l => Json.str (pyStrip l)))] }
        m2 =
        { cur := some "documentation",
          acc := [("code_improvements", (l0 :: ls).map (fun l => Json.str (pyStrip l)))] } := by
      unfold aiStep
      simp [h2a, h2b]
    rw [hstep2, aiScan_fold_content "documentation" rfl (n0 :: ms) _ rfl hms]
    have hfresh : ([("code_improvements", (l0 :: ls).map (fun l => Json.str (pyStrip l)))] : SMap).any
        (fun p => p.1 == "documentation") = false := by
      have hne : (("code_improvements" : String) == "documentation") = false := by decide
      simp [List.any_cons, hne]
    rw [smapAppend_foldl_new "documentation" (fun l => Json.str (pyStrip l)) n0 ms _ hfresh]
    rfl
  · rfl

/-- Witness for the amended C3 at a concrete two-block input. -/
theorem c3_amended_witness :
    aiScanLines ["1. Tests", "alpha", "2. Docs", "beta"] =
      [("code_improvements", [Json.str "alpha"]),
       ("documentation", [Json.str "beta"])] := by
  have h := c3_amended_ordinal_grouping.1 "1. Tests" "2. Docs" "alpha" "beta" [] []
    rfl rfl rfl (by decide) (by decide)
  exact h
